import Mathlib

/-!  Verification of the incremental HTML test-report builder
     (`HTMLTestReport` in `Test_Log_Generator.py`).

Strings are modelled as `List Char` (Python `str` is a sequence of code
points, which matches character-indexed slicing and searching in the
source).  Each definition below embeds one Python function or method of
the source; fallible operations return an explicit result type. -/

namespace TestLog

/-- Character-list view of a string literal. -/
def lit (s : String) : List Char := s.data

/-- Boolean prefix test on character lists (Python slice comparison /
`str.startswith`, and the primitive used to model substring search). -/
def isPre : List Char → List Char → Bool
  | [], _ => true
  | _ :: _, [] => false
  | a :: as, b :: bs => decide (a = b) && isPre as bs

/-- Python `pat in s` substring containment. -/
def occursIn (pat : List Char) : List Char → Bool
  | [] => pat.isEmpty
  | c :: rest => isPre pat (c :: rest) || occursIn pat rest

/-- Number of positions of `s` at which `pat` occurs (used to state
row-count facts about rendered table blocks). -/
def countOcc (pat : List Char) : List Char → ℕ
  | [] => 0
  | c :: rest => (if isPre pat (c :: rest) then 1 else 0) + countOcc pat rest

/-- Python `s.replace(pat, repl)` for a nonempty `pat`: replaces every
non-overlapping occurrence, scanning left to right, without rescanning
replacement text.  (All `str.replace` call sites in the source pass a
nonempty literal pattern.)  Structural on fuel so that it evaluates in
proofs; a successful match consumes at least one character, so fuel
`s.length` always suffices. -/
def replaceAux (pat repl : List Char) : ℕ → List Char → List Char
  | 0, s => s
  | _, [] => []
  | fuel + 1, c :: rest =>
    if pat ≠ [] && isPre pat (c :: rest) then
      repl ++ replaceAux pat repl fuel ((c :: rest).drop pat.length)
    else c :: replaceAux pat repl fuel rest

/-- Python `s.replace(pat, repl)`. -/
def replaceAllL (pat repl : List Char) (s : List Char) : List Char :=
  replaceAux pat repl s.length s

/-- Python `s.rfind(pat)`: the greatest position at which `pat` occurs
in `s`, if any. -/
def strRFind (pat s : List Char) : Option ℕ :=
  ((List.range (s.length + 1)).filter (fun i => isPre pat (s.drop i))).getLast?

/-- Python 3 `\w` on the ASCII text manipulated by the source. -/
def isWordChar (c : Char) : Bool := c.isAlphanum || decide (c = '_')

/-- Consume a literal; `none` when the input does not start with it. -/
def matchLit (l : List Char) (s : List Char) : Option (List Char) :=
  if isPre l s then some (s.drop l.length) else none

/-- Consume a maximal nonempty run of word characters (regex `\w+`). -/
def matchWord1 (s : List Char) : Option (List Char × List Char) :=
  let w := s.takeWhile isWordChar
  if w = [] then none else some (w, s.dropWhile isWordChar)

/-- Consume a maximal nonempty run of digits (regex `\d+`). -/
def matchDigits1 (s : List Char) : Option (List Char × List Char) :=
  let d := s.takeWhile Char.isDigit
  if d = [] then none else some (d, s.dropWhile Char.isDigit)

/-- Driver for `re.sub`: at each position try one deterministic pattern
match; on success emit its replacement and continue after the consumed
text, otherwise keep the character.  Every matcher passed to it consumes
at least one character, so fuel `s.length` is never exhausted. -/
def subAll (tryM : List Char → Option (List Char × List Char)) :
    ℕ → List Char → List Char
  | _, [] => []
  | 0, s => s
  | fuel + 1, c :: rest =>
    match tryM (c :: rest) with
    | some (repl, rest') => repl ++ subAll tryM fuel rest'
    | none => c :: subAll tryM fuel rest

/-- `re.sub` over a whole string. -/
def reSub (tryM : List Char → Option (List Char × List Char))
    (s : List Char) : List Char :=
  subAll tryM s.length s

/-- Decimal rendering of a natural number, as Python `str(n)` produces
for the non-negative integers written by the source.  Structural on a
fuel bound (the digit count never exceeds the fuel `n + 1`). -/
def natStrAux : ℕ → ℕ → List Char
  | 0, _ => []
  | fuel + 1, n =>
    if n < 10 then [Nat.digitChar n]
    else natStrAux fuel (n / 10) ++ [Nat.digitChar (n % 10)]

/-- Python `str(n)` for a natural number. -/
def natStr (n : ℕ) : List Char := natStrAux (n + 1) n

/-- Value of one decimal digit run. -/
def digitsVal (l : List Char) : ℕ :=
  l.foldl (fun acc c => acc * 10 + (c.toNat - '0'.toNat)) 0

/-- Python `float(s)`, modelled over ℚ for the plain decimal literals
(`[+-]? (digits [. digits?] | . digits | digits .)`) that the test-log
tables carry; exponent, infinity, nan and surrounding-whitespace forms
are outside the model.  `none` exactly when `float` raises `ValueError`
on such a literal (e.g. `"N/A"`, `""`). -/
def pyFloat? (s : List Char) : Option ℚ :=
  let signed : ℚ × List Char :=
    match s with
    | '+' :: r => (1, r)
    | '-' :: r => (-1, r)
    | r => (1, r)
  let sgn := signed.1
  let s1 := signed.2
  let ip := s1.takeWhile Char.isDigit
  let s2 := s1.dropWhile Char.isDigit
  match s2 with
  | [] => if ip = [] then none else some (sgn * (digitsVal ip : ℚ))
  | '.' :: r =>
    let fp := r.takeWhile Char.isDigit
    let s3 := r.dropWhile Char.isDigit
    if s3 ≠ [] then none
    else if ip = [] ∧ fp = [] then none
    else some (sgn * ((digitsVal ip : ℚ) +
      (digitsVal fp : ℚ) / ((10 : ℚ) ^ fp.length)))
  | _ => none

/-- Python `list.index` (first occurrence), `none` for `ValueError`. -/
def listIndex? (x : List Char) : List (List Char) → Option ℕ
  | [] => none
  | h :: t => if h = x then some 0 else (listIndex? x t).map (· + 1)

/-- Truthiness of an `Optional[str]` (Python: `None` and `""` are falsy). -/
def truthy : Option (List Char) → Bool
  | none => false
  | some s => decide (s ≠ [])

/-! ## Data model -/

/-- `self.last_table_specs`: the dictionary stored by `add_table`. -/
structure TableSpecs where
  headers : List (List Char)
  measured_col : Option (List Char)
  nominal_col : Option (List Char)
  tolerance_col : Option (List Char)
  lower_spec_col : Option (List Char)
  upper_spec_col : Option (List Char)
deriving DecidableEq

/-- Exceptions the modelled methods can raise.  `noActiveTable` and
`malformedBlock` are the two `ValueError`s of `add_table_row` (the
spec's `NoActiveTable` / `MalformedBlockState`); `typeError` is the
`TypeError` of `None in line`; `indexError` is list indexing out of
range. -/
inductive PyErr where
  | typeError
  | noActiveTable
  | malformedBlock
  | indexError
deriving DecidableEq

/-- Result of a Python method call on the builder: either a normal
return with the updated object, or an exception together with the
object state at raise time (Python leaves the object as it was). -/
inductive PyResult (α : Type) where
  | ok (val : α)
  | exn (err : PyErr) (val : α)
deriving DecidableEq

/-- The mutable state of an `HTMLTestReport` object (the fields that the
core builder logic reads or writes; the static CSS/JS preamble emitted
by `_init_html` is presentation detail outside the core). -/
structure HTMLTestReport where
  lines : List (List Char)
  last_table_index : Option ℕ
  last_table_specs : Option TableSpecs
  header_items : List (List Char × List Char)
  section_counter : ℕ
  current_section_title : Option (List Char)
  collapsible : Bool
  version : Option (List Char)
  footer_class : List Char
  test_log_path : Option (List Char)
deriving DecidableEq

/-! ## Row rendering and pass/fail evaluation
(`_process_row_with_specs`) -/

/-- One plain `<td>` line. -/
def tdPlain (cell : List Char) : List Char :=
  lit "                <td>" ++ cell ++ lit "</td>\n"

/-- A row rendered with no evaluation (the source's "regular row"). -/
def plainRow (row : List (List Char)) : List Char :=
  lit "            <tr>\n" ++ (row.map tdPlain).flatten ++ lit "            </tr>\n"

/-- One `<td>` line for the measured cell, carrying the pass/fail css
class and check/cross glyph. -/
def tdMarked (cell : List Char) (is_pass : Bool) : List Char :=
  lit "                <td" ++
  (if is_pass then lit " class=\"cell-pass\"" else lit " class=\"cell-fail\"") ++
  lit ">" ++ cell ++ (if is_pass then lit " ✓" else lit " ✗") ++ lit "</td>\n"

/-- A row rendered with the measured cell (only) annotated. -/
def markedRow (row : List (List Char)) (measured_idx : ℕ) (is_pass : Bool) :
    List Char :=
  lit "            <tr>\n" ++
  ((row.enum.map (fun p =>
      if p.1 = measured_idx then tdMarked p.2 is_pass else tdPlain p.2)).flatten) ++
  lit "            </tr>\n"

/-- The `try` block of the nominal + tolerance method: looks up both
columns, parses both cells, and yields `[nominal - tolerance,
nominal + tolerance]`; `none` models the caught
`ValueError` / `IndexError`. -/
def boundsNomTol (headers row : List (List Char)) (ncol tcol : List Char) :
    Option (ℚ × ℚ) :=
  match listIndex? ncol headers with
  | none => none
  | some ni =>
    match listIndex? tcol headers with
    | none => none
    | some ti =>
      match (row.get? ni).bind pyFloat? with
      | none => none
      | some nv =>
        match (row.get? ti).bind pyFloat? with
        | none => none
        | some tv => some (nv - tv, nv + tv)

/-- The `try` block of the lower/upper spec method. -/
def boundsLowUp (headers row : List (List Char)) (lcol ucol : List Char) :
    Option (ℚ × ℚ) :=
  match listIndex? lcol headers with
  | none => none
  | some li =>
    match listIndex? ucol headers with
    | none => none
    | some ui =>
      match (row.get? li).bind pyFloat? with
      | none => none
      | some lv =>
        match (row.get? ui).bind pyFloat? with
        | none => none
        | some uv => some (lv, uv)

/-- `_process_row_with_specs`: renders one row, annotating the measured
cell with a pass/fail marker when a measured column is configured and
its cell parses.  Total: the source catches every `ValueError` /
`IndexError` it can raise, so no exception escapes to the caller. -/
def processRowWithSpecs (specs? : Option TableSpecs)
    (row : List (List Char)) : List Char :=
  match specs? with
  | none => plainRow row
  | some specs =>
    if truthy specs.measured_col then
      match listIndex? (specs.measured_col.getD []) specs.headers with
      | none => plainRow row
      | some measured_idx =>
        match (row.get? measured_idx).bind pyFloat? with
        | none => plainRow row
        | some measured_value =>
          let is_pass : Bool :=
            if truthy specs.nominal_col && truthy specs.tolerance_col then
              match boundsNomTol specs.headers row
                  (specs.nominal_col.getD []) (specs.tolerance_col.getD []) with
              | some (lo, hi) =>
                decide (lo ≤ measured_value) && decide (measured_value ≤ hi)
              | none => false
            else if truthy specs.lower_spec_col && truthy specs.upper_spec_col then
              match boundsLowUp specs.headers row
                  (specs.lower_spec_col.getD []) (specs.upper_spec_col.getD []) with
              | some (lo, hi) =>
                decide (lo ≤ measured_value) && decide (measured_value ≤ hi)
              | none => false
            else false
          markedRow row measured_idx is_pass
    else plainRow row

/-! ## Section lifecycle (`start_section`, `end_section`) -/

/-- `start_section`: records the current section title and appends one
block holding the section opening markup (title, running badge,
progress bar at 0%, and — in collapsible mode — the content wrapper). -/
def start_section (st : HTMLTestReport) (title : List Char)
    (collapsed : Bool) : HTMLTestReport :=
  let status_badge := lit "<span class=\"section-status section-status-running\"></span>"
  let section_id := lit "section-" ++ natStr st.section_counter
  let progress_bar := lit "<div class=\"section-progress\"><div id=\"" ++
    section_id ++
    lit "-progress\" class=\"section-progress-bar animated\" style=\"width: 0%\"></div></div>"
  let section_html :=
    if st.collapsible then
      let collapsed_class := if collapsed then lit " collapsed" else []
      let onclick := lit " onclick=\"toggleSection(\x27" ++ section_id ++ lit "\x27)\""
      lit "<div class=\"section\">\n" ++
      lit "    <div id=\"" ++ section_id ++
      lit "-title\" class=\"section-title category-running collapsible" ++
      collapsed_class ++ lit "\"" ++ onclick ++ lit ">" ++ title ++
      status_badge ++ progress_bar ++ lit "</div>\n" ++
      lit "    <div id=\"" ++ section_id ++ lit "-content\" class=\"section-content" ++
      collapsed_class ++ lit "\">\n"
    else
      lit "<div class=\"section\">\n" ++
      lit "    <div class=\"section-title category-running\">" ++ title ++
      status_badge ++ progress_bar ++ lit "</div>\n"
  { st with current_section_title := some title,
            section_counter := st.section_counter + 1,
            lines := st.lines ++ [section_html] }

/-! ## Section patch operations
(`update_section_status`, `update_section_progress`) -/

/-- Regex `<span class="section-status section-status-\w+"></span>`,
replaced by nothing. -/
def statusBadgeTry (s : List Char) : Option (List Char × List Char) := do
  let s1 ← matchLit (lit "<span class=\"section-status section-status-") s
  let p ← matchWord1 s1
  let s2 ← matchLit (lit "\"></span>") p.2
  pure ([], s2)

/-- Regex ` category-\w+`, replaced by nothing. -/
def categoryTry (s : List Char) : Option (List Char × List Char) := do
  let s1 ← matchLit (lit " category-") s
  let p ← matchWord1 s1
  pure ([], p.2)

/-- The in-place rewrite `update_section_status` applies to the matched
line: strip any status badge and category class, re-insert the category
on the `section-title` element, and insert the new badge (before the
progress bar when one exists, else right after the title text). -/
def patchStatusLine (section_title status line : List Char) : List Char :=
  let line := reSub statusBadgeTry line
  let line := reSub categoryTry line
  let line := replaceAllL (lit "class=\"section-title")
    (lit "class=\"section-title category-" ++ status) line
  let status_badge := lit "<span class=\"section-status section-status-" ++
    status ++ lit "\"></span>"
  if occursIn (lit "<div class=\"section-progress") line then
    replaceAllL (lit "<div class=\"section-progress")
      (status_badge ++ lit "<div class=\"section-progress") line
  else
    replaceAllL (lit ">" ++ section_title ++ lit "<")
      (lit ">" ++ section_title ++ status_badge ++ lit "<") line

/-- Regex `(<div id="section-\d+-progress" class="section-progress-bar[^"]*"
style="width: )\d+(%")` with the width digits replaced by `w`. -/
def widthTry (w : List Char) (s : List Char) : Option (List Char × List Char) := do
  let s1 ← matchLit (lit "<div id=\"section-") s
  let p1 ← matchDigits1 s1
  let s2 ← matchLit (lit "-progress\" class=\"section-progress-bar") p1.2
  let cls := s2.takeWhile (fun c => decide (c ≠ '"'))
  let s3 := s2.dropWhile (fun c => decide (c ≠ '"'))
  let s4 ← matchLit (lit "\" style=\"width: ") s3
  let p2 ← matchDigits1 s4
  let s5 ← matchLit (lit "%\"") p2.2
  pure (lit "<div id=\"section-" ++ p1.1 ++
    lit "-progress\" class=\"section-progress-bar" ++ cls ++
    lit "\" style=\"width: " ++ w ++ lit "%\"", s5)

/-- Regex `(<div id="section-\d+-progress" class="section-progress-bar)"`
rewritten to `\1 complete"`. -/
def barCompleteTry (s : List Char) : Option (List Char × List Char) := do
  let s1 ← matchLit (lit "<div id=\"section-") s
  let p1 ← matchDigits1 s1
  let s2 ← matchLit (lit "-progress\" class=\"section-progress-bar\"") p1.2
  pure (lit "<div id=\"section-" ++ p1.1 ++
    lit "-progress\" class=\"section-progress-bar complete\"", s2)

/-- The rewrite `update_section_progress` applies to the matched line,
given the already-clamped progress value: set the width; at 100, also
drop every ` animated` marker and add the two `complete` markers. -/
def patchProgressLine (progress : ℕ) (line : List Char) : List Char :=
  let line := reSub (widthTry (natStr progress)) line
  if progress ≥ 100 then
    let line := replaceAllL (lit " animated") [] line
    let line := reSub barCompleteTry line
    replaceAllL (lit "<div class=\"section-progress\">")
      (lit "<div class=\"section-progress complete\">") line
  else line

/-- The title fragment both patch methods scan for. -/
def titleMarker : List Char := lit "class=\"section-title"

/-- A block matches when it holds both the title marker and the title. -/
def sectionMatch (section_title line : List Char) : Bool :=
  occursIn titleMarker line && occursIn section_title line

/-- The scan loop shared by both patch methods: walk the block list in
order, patch the first block containing both the marker and the title,
and stop.  `section_title` is an `Option` because `end_section` feeds
`self.current_section_title` straight in: evaluating `None in line`
after the marker test succeeds raises `TypeError` (carrying the
untouched list). -/
def patchFirst (section_title : Option (List Char))
    (patch : List Char → List Char → List Char) :
    List (List Char) → PyResult (List (List Char))
  | [] => .ok []
  | l :: ls =>
    if occursIn titleMarker l then
      match section_title with
      | none => .exn .typeError (l :: ls)
      | some t =>
        if occursIn t l then .ok (patch t l :: ls)
        else
          match patchFirst section_title patch ls with
          | .ok ls' => .ok (l :: ls')
          | .exn e ls' => .exn e (l :: ls')
    else
      match patchFirst section_title patch ls with
      | .ok ls' => .ok (l :: ls')
      | .exn e ls' => .exn e (l :: ls')

/-- `update_section_status`: patch the badge/category of the first block
matching the title; silent no-op when none matches. -/
def update_section_status (st : HTMLTestReport)
    (section_title : Option (List Char)) (status : List Char) :
    PyResult HTMLTestReport :=
  match patchFirst section_title (fun t line => patchStatusLine t status line)
      st.lines with
  | .ok ls => .ok { st with lines := ls }
  | .exn e _ => .exn e st

/-- `update_section_progress`: clamp to [0,100], then patch the progress
bar of the first block matching the title; silent no-op when none
matches. -/
def update_section_progress (st : HTMLTestReport)
    (section_title : Option (List Char)) (progress : ℤ) :
    PyResult HTMLTestReport :=
  let clamped : ℕ := (max 0 (min 100 progress)).toNat
  match patchFirst section_title (fun _ line => patchProgressLine clamped line)
      st.lines with
  | .ok ls => .ok { st with lines := ls }
  | .exn e _ => .exn e st

/-- `end_section`: with a status, first set progress to 100 and the
status badge (through `self.current_section_title`), then emit the
closing markup and clear the current section. -/
def end_section (st : HTMLTestReport) (status : Option (List Char)) :
    PyResult HTMLTestReport :=
  let closers (s : HTMLTestReport) : HTMLTestReport :=
    let s1 := if s.collapsible then { s with lines := s.lines ++ [lit "    </div>\n"] }
              else s
    { s1 with lines := s1.lines ++ [lit "</div>\n"], current_section_title := none }
  match status with
  | some stat =>
    match update_section_progress st st.current_section_title 100 with
    | .exn e st' => .exn e st'
    | .ok st1 =>
      match update_section_status st1 st1.current_section_title stat with
      | .exn e st' => .exn e st'
      | .ok st2 => .ok (closers st2)
  | none => .ok (closers st)

/-! ## Tables (`add_table`, `add_table_row`) -/

/-- `add_table`: store the spec configuration, render the whole table
block (head plus the initial rows, each evaluated against the new
specs), remember its index, and append it. -/
def add_table (st : HTMLTestReport) (headers : List (List Char))
    (rows : List (List (List Char)))
    (title category measured_col nominal_col tolerance_col
      lower_spec_col upper_spec_col : Option (List Char)) : HTMLTestReport :=
  let specs : TableSpecs :=
    ⟨headers, measured_col, nominal_col, tolerance_col, lower_spec_col, upper_spec_col⟩
  let category_class :=
    if truthy category then lit " category-" ++ category.getD [] else []
  let title_html :=
    if truthy title then
      lit "    <div style=\"font-weight: 600; margin: 15px 0 5px 0;\">" ++
      title.getD [] ++ lit "</div>\n"
    else []
  let table_html :=
    title_html ++ lit "    <table class=\"" ++ category_class ++
    lit "\">\n        <thead>\n            <tr>\n" ++
    (headers.map (fun h => lit "                <th>" ++ h ++ lit "</th>\n")).flatten ++
    lit "            </tr>\n        </thead>\n        <tbody>\n" ++
    (rows.map (processRowWithSpecs (some specs))).flatten ++
    lit "        </tbody>\n    </table>\n"
  { st with last_table_specs := some specs,
            last_table_index := some st.lines.length,
            lines := st.lines ++ [table_html] }

/-- The closing body marker `add_table_row` splices in front of. -/
def tbodyMarker : List Char := lit "        </tbody>"

/-- `add_table_row`: requires a current table (else
`ValueError` = `NoActiveTable`); re-renders nothing — it splices one
freshly evaluated row fragment into the stored table block immediately
before the last `        </tbody>` and writes the block back at the
stored index. -/
def add_table_row (st : HTMLTestReport) (row : List (List Char)) :
    PyResult HTMLTestReport :=
  match st.last_table_index with
  | none => .exn .noActiveTable st
  | some idx =>
    match st.lines.get? idx with
    | none => .exn .indexError st
    | some table_html =>
      match strRFind tbodyMarker table_html with
      | none => .exn .malformedBlock st
      | some insert_pos =>
        let new_row_html := processRowWithSpecs st.last_table_specs row
        let updated := table_html.take insert_pos ++ new_row_html ++
          table_html.drop insert_pos
        .ok { st with lines := st.lines.set idx updated }

/-! ## Serialization (`finalize`) -/

/-- One banner item fragment (`_build_banner_items` loop body). -/
def bannerItemHtml (p : List Char × List Char) : List Char :=
  lit "            <div class=\"banner-item\">\n                <div class=\"banner-item-title\">" ++
  p.1 ++ lit "</div>\n                <div class=\"banner-item-value\">" ++
  p.2 ++ lit "</div>\n            </div>\n"

/-- `_build_banner_items`. -/
def buildBannerItems (items : List (List Char × List Char)) : List Char :=
  if items = [] then [] else (items.map bannerItemHtml).flatten

/-- `finalize`: concatenate all blocks, substitute the banner-items
placeholder, and append the footer. -/
def finalize (st : HTMLTestReport) : List Char :=
  let banner_items_html := buildBannerItems st.header_items
  let full_html := st.lines.flatten
  let full_html := replaceAllL
    (lit "            <!-- Banner items will be inserted here -->")
    banner_items_html full_html
  let footer_version :=
    if truthy st.version then lit "Version: " ++ st.version.getD [] else []
  let path_str := match st.test_log_path with | none => lit "None" | some p => p
  full_html ++ lit "    </div>\n    <div class=\"footer " ++ st.footer_class ++
  lit "\">\n        <div class=\"footer-version\">" ++ footer_version ++
  lit "</div>\n        <a class= \"footer-path\" href=\"file:///" ++ path_str ++
  lit "\" target=\"_blank\">Test Log Can be found here.</a>\n        <button class=\"footer-theme-toggle\" onclick=\"toggleTheme()\">🌙 Dark Mode</button>\n    </div>\n</body>\n</html>"

/-! ## Lemmas about substring search and occurrence counts -/

theorem isPre_append_self (p y : List Char) : isPre p (p ++ y) = true := by
  induction p with
  | nil => rfl
  | cons a as ih => simp [isPre, ih]

theorem occursIn_embed (pat x y : List Char) :
    occursIn pat (x ++ pat ++ y) = true := by
  induction x with
  | nil =>
    cases pat with
    | nil => cases y <;> simp [occursIn, isPre, List.isEmpty]
    | cons p ps =>
      simp only [List.nil_append, List.cons_append, occursIn]
      have := isPre_append_self (p :: ps) y
      simp only [List.cons_append] at this
      simp [this]
  | cons a x' ih =>
    have h : (a :: x') ++ pat ++ y = a :: (x' ++ pat ++ y) := by simp
    rw [h, occursIn, ih, Bool.or_true]

theorem occursIn_of_eq (pat s x y : List Char) (h : s = x ++ pat ++ y) :
    occursIn pat s = true := h ▸ occursIn_embed pat x y

/-- A match that starts inside nonempty `x` and would have to continue
into `c :: b` is impossible when `c` is not among the pattern's later
characters, so prefix-testing past `x` adds nothing. -/
theorem isPre_append_cons (pat : List Char) :
    ∀ x : List Char, x ≠ [] → ∀ c b, c ∉ pat.drop 1 →
      isPre pat (x ++ c :: b) = isPre pat x := by
  intro x
  induction x generalizing pat with
  | nil => intro h; exact absurd rfl h
  | cons x0 x' ih =>
    intro _ c b hc
    cases pat with
    | nil => rfl
    | cons p ps =>
      simp only [List.cons_append, isPre]
      congr 1
      cases x' with
      | nil =>
        cases ps with
        | nil => rfl
        | cons q qs =>
          simp only [List.nil_append, isPre]
          have hq : ¬(q = c) := by
            intro h; apply hc; simp only [List.drop_one, List.tail_cons]
            exact h ▸ List.mem_cons_self q qs
          simp [hq]
      | cons x1 x'' =>
        exact ih ps (by simp) c b
          (fun h => hc (List.drop_subset 1 ps h))

/-- Occurrence counting distributes over an append whose right part
starts with a character foreign to the pattern's tail. -/
theorem countOcc_append_r (pat a b : List Char) (c : Char) (hc : c ∉ pat.drop 1) :
    countOcc pat (a ++ c :: b) = countOcc pat a + countOcc pat (c :: b) := by
  induction a with
  | nil => simp [countOcc]
  | cons a0 a' ih =>
    have h1 : isPre pat ((a0 :: a') ++ c :: b) = isPre pat (a0 :: a') :=
      isPre_append_cons pat (a0 :: a') (by simp) c b hc
    have h2 : countOcc pat ((a0 :: a') ++ c :: b) =
        (if isPre pat ((a0 :: a') ++ c :: b) then 1 else 0) +
          countOcc pat (a' ++ c :: b) := rfl
    rw [h2, h1, ih]
    conv_rhs => rw [countOcc]
    omega

/-- A match that starts inside `x` (which ends with a character foreign
to all but the pattern's last position) cannot continue past `x`. -/
theorem isPre_append_getLast (pat : List Char) :
    ∀ x : List Char, ∀ c, x.getLast? = some c → c ∉ pat.dropLast →
      ∀ b, isPre pat (x ++ b) = isPre pat x := by
  intro x
  induction x generalizing pat with
  | nil => intro c h; simp at h
  | cons x0 x' ih =>
    intro c hlast hc b
    cases pat with
    | nil => rfl
    | cons p ps =>
      cases ps with
      | nil => cases x' <;> simp [isPre]
      | cons q qs =>
        cases x' with
        | nil =>
          simp only [List.getLast?_singleton, Option.some.injEq] at hlast
          have hp : ¬(p = x0) := by
            intro h
            apply hc
            rw [h, hlast]
            simp [List.dropLast_cons₂]
          simp [isPre, hp]
        | cons x1 x'' =>
          have hlast' : (x1 :: x'').getLast? = some c := by
            rwa [List.getLast?_cons_cons] at hlast
          have hc' : c ∉ (q :: qs).dropLast := by
            intro h
            apply hc
            rw [List.dropLast_cons₂]
            exact List.mem_cons_of_mem p h
          have hih := ih (q :: qs) c hlast' hc' b
          simp only [List.cons_append, isPre] at hih ⊢
          rw [hih]

/-- Occurrence counting distributes over an append whose left part ends
with a character foreign to all but the pattern's last position. -/
theorem countOcc_append_l (pat : List Char) :
    ∀ (a : List Char) (c : Char), a.getLast? = some c → c ∉ pat.dropLast →
      ∀ b, countOcc pat (a ++ b) = countOcc pat a + countOcc pat b := by
  intro a
  induction a with
  | nil => intro c h; simp at h
  | cons a0 a' ih =>
    intro c hlast hc b
    have h1 : isPre pat ((a0 :: a') ++ b) = isPre pat (a0 :: a') :=
      isPre_append_getLast pat (a0 :: a') c hlast hc b
    have h2 : countOcc pat ((a0 :: a') ++ b) =
        (if isPre pat ((a0 :: a') ++ b) then 1 else 0) +
          countOcc pat (a' ++ b) := rfl
    rw [h2, h1]
    cases a' with
    | nil =>
      simp only [List.nil_append, countOcc]
      omega
    | cons a1 a'' =>
      have hlast' : (a1 :: a'').getLast? = some c := by
        rwa [List.getLast?_cons_cons] at hlast
      rw [ih c hlast' hc b]
      conv_rhs => rw [countOcc]
      omega

theorem countOcc_eq_zero (pat s : List Char) (h : occursIn pat s = false) :
    countOcc pat s = 0 := by
  induction s with
  | nil => rfl
  | cons c r ih =>
    simp only [occursIn, Bool.or_eq_false_iff] at h
    simp [countOcc, h.1, ih h.2]

/-- Prefix testing ignores a contiguous stretch of characters disjoint
from the pattern (the stretch either lies beyond the matched prefix or
would have to contribute a character to it). -/
theorem isPre_disjoint_append (pat : List Char) :
    ∀ x d b : List Char, d ≠ [] → (∀ ch ∈ pat, ch ∉ d) →
      isPre pat (x ++ (d ++ b)) = isPre pat x := by
  intro x
  induction x generalizing pat with
  | nil =>
    intro d b hd hdis
    cases pat with
    | nil => rfl
    | cons p ps =>
      cases d with
      | nil => exact absurd rfl hd
      | cons d0 d' =>
        have hp : ¬(p = d0) := by
          intro h
          exact hdis p (List.mem_cons_self p ps) (h ▸ List.mem_cons_self d0 d')
        simp [isPre, hp]
  | cons x0 x' ih =>
    intro d b hd hdis
    cases pat with
    | nil => rfl
    | cons p ps =>
      show (decide (p = x0) && isPre ps (x' ++ (d ++ b))) =
        (decide (p = x0) && isPre ps x')
      rw [ih ps d b hd (fun ch h => hdis ch (List.mem_cons_of_mem p h))]

/-- Substring containment skips over a disjoint stretch entirely. -/
theorem occursIn_disjoint_left (pat : List Char) (hp : pat ≠ []) :
    ∀ d b : List Char, (∀ ch ∈ pat, ch ∉ d) →
      occursIn pat (d ++ b) = occursIn pat b := by
  intro d
  induction d with
  | nil => intro b _; rfl
  | cons d0 d' ih =>
    intro b hdis
    have h1 : isPre pat (d0 :: (d' ++ b)) = false := by
      cases pat with
      | nil => exact absurd rfl hp
      | cons p ps =>
        have : ¬(p = d0) := by
          intro h
          exact hdis p (List.mem_cons_self p ps) (h ▸ List.mem_cons_self d0 d')
        simp [isPre, this]
    show (isPre pat (d0 :: (d' ++ b)) || occursIn pat (d' ++ b)) = occursIn pat b
    rw [h1, ih b (fun ch h hm => hdis ch h (List.mem_cons_of_mem d0 hm))]
    simp

/-- An occurrence in `a ++ d ++ b` with `d` nonempty and disjoint from
the pattern lies entirely inside `a` or entirely inside `b`. -/
theorem occursIn_disjoint_mid (pat a d b : List Char) (hp : pat ≠ [])
    (hd : d ≠ []) (hdis : ∀ ch ∈ pat, ch ∉ d) :
    occursIn pat (a ++ d ++ b) = (occursIn pat a || occursIn pat b) := by
  induction a with
  | nil =>
    simp only [List.nil_append]
    rw [occursIn_disjoint_left pat hp d b hdis]
    cases pat with
    | nil => exact absurd rfl hp
    | cons p ps => simp [occursIn, List.isEmpty]
  | cons a0 a' ih =>
    show (isPre pat (a0 :: ((a' ++ d) ++ b)) || occursIn pat ((a' ++ d) ++ b)) =
      (occursIn pat (a0 :: a') || occursIn pat b)
    rw [show a0 :: ((a' ++ d) ++ b) = (a0 :: a') ++ (d ++ b) by simp,
      isPre_disjoint_append pat (a0 :: a') d b hd hdis, ih]
    conv_rhs => rw [occursIn]
    rw [Bool.or_assoc]

/-! ## Evaluator lemmas -/

/-- Once the measured column is configured, found and parsed, the row is
rendered with a marker computed by the two-method bounds cascade. -/
theorem processRow_marked (specs : TableSpecs) (row : List (List Char))
    (mi : ℕ) (m : ℚ)
    (h1 : truthy specs.measured_col = true)
    (h2 : listIndex? (specs.measured_col.getD []) specs.headers = some mi)
    (h3 : (row.get? mi).bind pyFloat? = some m) :
    processRowWithSpecs (some specs) row = markedRow row mi
      (if truthy specs.nominal_col && truthy specs.tolerance_col then
        match boundsNomTol specs.headers row (specs.nominal_col.getD [])
            (specs.tolerance_col.getD []) with
        | some (lo, hi) => decide (lo ≤ m) && decide (m ≤ hi)
        | none => false
      else if truthy specs.lower_spec_col && truthy specs.upper_spec_col then
        match boundsLowUp specs.headers row (specs.lower_spec_col.getD [])
            (specs.upper_spec_col.getD []) with
        | some (lo, hi) => decide (lo ≤ m) && decide (m ≤ hi)
        | none => false
      else false) := by
  simp only [processRowWithSpecs, h1, if_true, h2, h3]

/-- Claim C1: for every table spec with a configured measured column and
every row in which the measured cell and all required bound cells parse
as real numbers, the evaluator marks the row as pass iff
`lower_bound ≤ measured ≤ upper_bound` (both ends inclusive), the bounds
being `[nominal - tolerance, nominal + tolerance]` when the nominal and
tolerance columns are configured, and `[lower, upper]` when the lower
and upper spec columns are configured. -/
theorem C1_pass_iff_within_bounds :
    (∀ (specs : TableSpecs) (row : List (List Char)) (mi ni ti : ℕ) (m n t : ℚ),
      truthy specs.measured_col = true →
      listIndex? (specs.measured_col.getD []) specs.headers = some mi →
      (row.get? mi).bind pyFloat? = some m →
      truthy specs.nominal_col = true →
      truthy specs.tolerance_col = true →
      listIndex? (specs.nominal_col.getD []) specs.headers = some ni →
      listIndex? (specs.tolerance_col.getD []) specs.headers = some ti →
      (row.get? ni).bind pyFloat? = some n →
      (row.get? ti).bind pyFloat? = some t →
      processRowWithSpecs (some specs) row =
        markedRow row mi (decide (n - t ≤ m ∧ m ≤ n + t)))
  ∧ (∀ (specs : TableSpecs) (row : List (List Char)) (mi li ui : ℕ) (m lo up : ℚ),
      truthy specs.measured_col = true →
      listIndex? (specs.measured_col.getD []) specs.headers = some mi →
      (row.get? mi).bind pyFloat? = some m →
      (truthy specs.nominal_col && truthy specs.tolerance_col) = false →
      truthy specs.lower_spec_col = true →
      truthy specs.upper_spec_col = true →
      listIndex? (specs.lower_spec_col.getD []) specs.headers = some li →
      listIndex? (specs.upper_spec_col.getD []) specs.headers = some ui →
      (row.get? li).bind pyFloat? = some lo →
      (row.get? ui).bind pyFloat? = some up →
      processRowWithSpecs (some specs) row =
        markedRow row mi (decide (lo ≤ m ∧ m ≤ up))) := by
  constructor
  · intro specs row mi ni ti m n t h1 h2 h3 h4 h5 h6 h7 h8 h9
    have hb : boundsNomTol specs.headers row (specs.nominal_col.getD [])
        (specs.tolerance_col.getD []) = some (n - t, n + t) := by
      simp only [boundsNomTol, h6, h7, h8, h9]
    rw [processRow_marked specs row mi m h1 h2 h3]
    simp [h4, h5, hb]
  · intro specs row mi li ui m lo up h1 h2 h3 h4 h5 h6 h7 h8 h9 h10
    have hb : boundsLowUp specs.headers row (specs.lower_spec_col.getD [])
        (specs.upper_spec_col.getD []) = some (lo, up) := by
      simp only [boundsLowUp, h7, h8, h9, h10]
    rw [processRow_marked specs row mi m h1 h2 h3]
    simp [h4, h5, h6, hb]

/-- Witness for C1: `nominal=5.00, tolerance=0.25, measured=5.25` passes
the nominal method; `lower=0.90, upper=1.10, measured=0.90` passes the
spec-limit method. -/
theorem C1_pass_iff_within_bounds_witness :
    processRowWithSpecs
        (some ⟨[lit "N", lit "T", lit "M"], some (lit "M"), some (lit "N"),
          some (lit "T"), none, none⟩)
        [lit "5.00", lit "0.25", lit "5.25"] =
      markedRow [lit "5.00", lit "0.25", lit "5.25"] 2
        (decide ((5 : ℚ) - 1/4 ≤ 21/4 ∧ (21/4 : ℚ) ≤ 5 + 1/4))
  ∧ processRowWithSpecs
        (some ⟨[lit "L", lit "U", lit "M"], some (lit "M"), none, none,
          some (lit "L"), some (lit "U")⟩)
        [lit "0.90", lit "1.10", lit "0.90"] =
      markedRow [lit "0.90", lit "1.10", lit "0.90"] 2
        (decide ((9/10 : ℚ) ≤ 9/10 ∧ (9/10 : ℚ) ≤ 11/10)) :=
  ⟨C1_pass_iff_within_bounds.1 _ _ 2 0 1 (21/4) 5 (1/4) (by decide) (by decide)
      (by
        show some ((1 : ℚ) * (((5 : ℕ) : ℚ) + ((25 : ℕ) : ℚ) / (10 : ℚ) ^ (2 : ℕ))) =
          some (21/4)
        norm_num)
      (by decide) (by decide) (by decide) (by decide)
      (by
        show some ((1 : ℚ) * (((5 : ℕ) : ℚ) + ((0 : ℕ) : ℚ) / (10 : ℚ) ^ (2 : ℕ))) =
          some 5
        norm_num)
      (by
        show some ((1 : ℚ) * (((0 : ℕ) : ℚ) + ((25 : ℕ) : ℚ) / (10 : ℚ) ^ (2 : ℕ))) =
          some (1/4)
        norm_num),
   C1_pass_iff_within_bounds.2 _ _ 2 0 1 (9/10) (9/10) (11/10) (by decide)
      (by decide)
      (by
        show some ((1 : ℚ) * (((0 : ℕ) : ℚ) + ((90 : ℕ) : ℚ) / (10 : ℚ) ^ (2 : ℕ))) =
          some (9/10)
        norm_num)
      (by decide) (by decide) (by decide) (by decide) (by decide)
      (by
        show some ((1 : ℚ) * (((0 : ℕ) : ℚ) + ((90 : ℕ) : ℚ) / (10 : ℚ) ^ (2 : ℕ))) =
          some (9/10)
        norm_num)
      (by
        show some ((1 : ℚ) * (((1 : ℕ) : ℚ) + ((10 : ℕ) : ℚ) / (10 : ℚ) ^ (2 : ℕ))) =
          some (11/10)
        norm_num)⟩

/-- Claim C2, counterexample: with only a measured column configured
(no bound columns at all) and a parseable measured cell `"1.0"`, the
row is NOT rendered plainly — the measured cell receives the fail
marker, because `is_pass` is initialised to `False` and the renderer
still annotates. -/
theorem C2_counterexample :
    processRowWithSpecs
        (some ⟨[lit "M"], some (lit "M"), none, none, none, none⟩)
        [lit "1.0"] ≠ plainRow [lit "1.0"]
  ∧ occursIn (lit "cell-fail")
      (processRowWithSpecs
        (some ⟨[lit "M"], some (lit "M"), none, none, none, none⟩)
        [lit "1.0"]) = true :=
  ⟨by decide, by decide⟩

/-- Claim C2 (amended): for every row whose measured cell parses under a
spec with a configured measured column, if the bounds cannot be
determined — because neither bound-column pair is fully configured, or
because a required bound cell is absent or fails numeric parsing — the
row is rendered with the measured cell marked as FAIL (css class
`cell-fail` and a cross glyph), not plainly. -/
theorem C2_amended_fail_marked :
    ∀ (specs : TableSpecs) (row : List (List Char)) (mi : ℕ) (m : ℚ),
      truthy specs.measured_col = true →
      listIndex? (specs.measured_col.getD []) specs.headers = some mi →
      (row.get? mi).bind pyFloat? = some m →
      (((truthy specs.nominal_col && truthy specs.tolerance_col) = true ∧
          boundsNomTol specs.headers row (specs.nominal_col.getD [])
            (specs.tolerance_col.getD []) = none) ∨
        ((truthy specs.nominal_col && truthy specs.tolerance_col) = false ∧
          (truthy specs.lower_spec_col && truthy specs.upper_spec_col) = true ∧
          boundsLowUp specs.headers row (specs.lower_spec_col.getD [])
            (specs.upper_spec_col.getD []) = none) ∨
        ((truthy specs.nominal_col && truthy specs.tolerance_col) = false ∧
          (truthy specs.lower_spec_col && truthy specs.upper_spec_col) = false)) →
      processRowWithSpecs (some specs) row = markedRow row mi false := by
  intro specs row mi m h1 h2 h3 hcase
  rw [processRow_marked specs row mi m h1 h2 h3]
  rcases hcase with ⟨hnt, hb⟩ | ⟨hnt, hlu, hb⟩ | ⟨hnt, hlu⟩
  · simp [hnt, hb]
  · simp [hnt, hlu, hb]
  · simp [hnt, hlu]

/-- Witness for the amended C2: measured parses, no bound pair
configured, row comes out fail-marked. -/
theorem C2_amended_fail_marked_witness :
    processRowWithSpecs
        (some ⟨[lit "M"], some (lit "M"), none, none, none, none⟩)
        [lit "1.0"] = markedRow [lit "1.0"] 0 false :=
  C2_amended_fail_marked _ _ 0 1 (by decide) (by decide)
    (by
      show some ((1 : ℚ) * (((1 : ℕ) : ℚ) + ((0 : ℕ) : ℚ) / (10 : ℚ) ^ (1 : ℕ))) =
        some 1
      norm_num)
    (Or.inr (Or.inr (by constructor <;> decide)))

/-- Claim C3: whenever no measured column is configured, or it is absent
from the headers, or the measured cell is missing or unparseable, the
row is rendered plainly with no evaluation marker.  (The evaluator is a
total function here, so no exception reaches the caller.) -/
theorem C3_unparseable_renders_plain :
    ∀ (specs? : Option TableSpecs) (row : List (List Char)),
      (specs? = none ∨
        ∃ specs, specs? = some specs ∧
          (truthy specs.measured_col = false ∨
           listIndex? (specs.measured_col.getD []) specs.headers = none ∨
           ∃ mi, listIndex? (specs.measured_col.getD []) specs.headers = some mi ∧
             (row.get? mi).bind pyFloat? = none)) →
      processRowWithSpecs specs? row = plainRow row := by
  intro specs? row hcase
  rcases hcase with rfl | ⟨specs, rfl, hcase⟩
  · rfl
  · rcases hcase with h | h | ⟨mi, h, h'⟩
    · simp [processRowWithSpecs, h]
    · rcases htr : truthy specs.measured_col with _ | _
      · simp [processRowWithSpecs, htr]
      · simp only [processRowWithSpecs, htr, if_true, h]
    · rcases htr : truthy specs.measured_col with _ | _
      · simp [processRowWithSpecs, htr]
      · simp only [processRowWithSpecs, htr, if_true, h, h']

/-- Witness for C3: the measured cell `"N/A"` does not parse, so the row
renders plainly. -/
theorem C3_unparseable_renders_plain_witness :
    processRowWithSpecs
        (some ⟨[lit "M"], some (lit "M"), none, none, none, none⟩)
        [lit "N/A"] = plainRow [lit "N/A"] :=
  C3_unparseable_renders_plain _ _
    (Or.inr ⟨_, rfl, Or.inr (Or.inr ⟨0, by decide, by decide⟩)⟩)

/-- Claim C9: when both bound methods are fully configured, the
nominal + tolerance method decides the marker, and the lower/upper
columns are never consulted — replacing them changes nothing, even when
the nominal or tolerance cells fail to parse. -/
theorem C9_nomtol_precedence :
    (∀ (specs : TableSpecs) (row : List (List Char)) (mi : ℕ) (m : ℚ),
      truthy specs.measured_col = true →
      listIndex? (specs.measured_col.getD []) specs.headers = some mi →
      (row.get? mi).bind pyFloat? = some m →
      truthy specs.nominal_col = true →
      truthy specs.tolerance_col = true →
      truthy specs.lower_spec_col = true →
      truthy specs.upper_spec_col = true →
      processRowWithSpecs (some specs) row = markedRow row mi
        (match boundsNomTol specs.headers row (specs.nominal_col.getD [])
            (specs.tolerance_col.getD []) with
         | some (lo, hi) => decide (lo ≤ m) && decide (m ≤ hi)
         | none => false))
  ∧ (∀ (specs : TableSpecs) (row : List (List Char))
        (lc uc : Option (List Char)),
      (truthy specs.nominal_col && truthy specs.tolerance_col) = true →
      processRowWithSpecs
          (some { specs with lower_spec_col := lc, upper_spec_col := uc }) row =
        processRowWithSpecs (some specs) row) := by
  constructor
  · intro specs row mi m h1 h2 h3 h4 h5 _ _
    rw [processRow_marked specs row mi m h1 h2 h3]
    simp [h4, h5]
  · intro specs row lc uc h
    simp only [processRowWithSpecs, h, if_true]

/-- Witness for C9: both methods configured; the lower/upper cells would
fail the row, but nominal ± tolerance passes it; swapping the lower and
upper columns away changes nothing. -/
theorem C9_nomtol_precedence_witness :
    processRowWithSpecs
        (some ⟨[lit "N", lit "T", lit "L", lit "U", lit "M"], some (lit "M"),
          some (lit "N"), some (lit "T"), some (lit "L"), some (lit "U")⟩)
        [lit "5.0", lit "0.5", lit "9", lit "10", lit "5.2"] =
      markedRow [lit "5.0", lit "0.5", lit "9", lit "10", lit "5.2"] 4
        (match boundsNomTol [lit "N", lit "T", lit "L", lit "U", lit "M"]
            [lit "5.0", lit "0.5", lit "9", lit "10", lit "5.2"]
            (lit "N") (lit "T") with
         | some (lo, hi) => decide (lo ≤ (26/5 : ℚ)) && decide ((26/5 : ℚ) ≤ hi)
         | none => false)
  ∧ processRowWithSpecs
        (some ⟨[lit "N", lit "T", lit "M"], some (lit "M"), some (lit "N"),
          some (lit "T"), none, none⟩)
        [lit "1", lit "2", lit "3"] =
      processRowWithSpecs
        (some ⟨[lit "N", lit "T", lit "M"], some (lit "M"), some (lit "N"),
          some (lit "T"), some (lit "X"), none⟩)
        [lit "1", lit "2", lit "3"] :=
  ⟨C9_nomtol_precedence.1 _ _ 4 (26/5) (by decide) (by decide)
      (by
        show some ((1 : ℚ) * (((5 : ℕ) : ℚ) + ((2 : ℕ) : ℚ) / (10 : ℚ) ^ (1 : ℕ))) =
          some (26/5)
        norm_num)
      (by decide) (by decide) (by decide) (by decide),
   C9_nomtol_precedence.2
      ⟨[lit "N", lit "T", lit "M"], some (lit "M"), some (lit "N"),
        some (lit "T"), some (lit "X"), none⟩ _ none none (by decide)⟩

/-! ## Table claims (C4, C5) -/

/-- Claim C4: `add_table_row` before any `add_table` raises the
no-active-table `ValueError`, and the builder (in particular its block
list) is left exactly as it was. -/
theorem C4_no_active_table (st : HTMLTestReport) (row : List (List Char))
    (h : st.last_table_index = none) :
    add_table_row st row = .exn .noActiveTable st := by
  simp [add_table_row, h]

/-- Witness for C4: a fresh builder state rejects `add_table_row`. -/
theorem C4_no_active_table_witness :
    add_table_row
        ⟨[], none, none, [], 0, none, false, none, lit "no-version", none⟩
        [lit "x"] =
      .exn .noActiveTable
        ⟨[], none, none, [], 0, none, false, none, lit "no-version", none⟩ :=
  C4_no_active_table _ _ rfl

/-- The row-open pattern counted to measure a table's row count. -/
def trPat : List Char := lit "<tr>"

/-- Every rendered row fragment opens with a space-indented `<tr>`. -/
theorem plainRow_head (row : List (List Char)) :
    ∃ r, plainRow row = ' ' :: r := ⟨_, rfl⟩

theorem markedRow_head (row : List (List Char)) (mi : ℕ) (b : Bool) :
    ∃ r, markedRow row mi b = ' ' :: r := ⟨_, rfl⟩

theorem plainRow_getLast (row : List (List Char)) :
    (plainRow row).getLast? = some '\n' := by
  show ((lit "            <tr>\n" ++ (row.map tdPlain).flatten) ++
    lit "            </tr>\n").getLast? = some '\n'
  rw [List.getLast?_append]
  rfl

theorem markedRow_getLast (row : List (List Char)) (mi : ℕ) (b : Bool) :
    (markedRow row mi b).getLast? = some '\n' := by
  show ((lit "            <tr>\n" ++
    ((row.enum.map (fun p =>
      if p.1 = mi then tdMarked p.2 b else tdPlain p.2)).flatten)) ++
    lit "            </tr>\n").getLast? = some '\n'
  rw [List.getLast?_append]
  rfl

/-- The evaluator renders every row either plainly or marked. -/
theorem processRow_shape (specs? : Option TableSpecs) (row : List (List Char)) :
    processRowWithSpecs specs? row = plainRow row ∨
    ∃ mi b, processRowWithSpecs specs? row = markedRow row mi b := by
  rcases specs? with _ | specs
  · exact Or.inl rfl
  · simp only [processRowWithSpecs]
    split
    · split
      · exact Or.inl rfl
      · split
        · exact Or.inl rfl
        · exact Or.inr ⟨_, _, rfl⟩
    · exact Or.inl rfl

/-- A cell line contains no row-open marker and is safely appendable:
it starts with a space and ends with a newline. -/
def tdLike (td : List Char) : Prop :=
  (∃ r, td = ' ' :: r) ∧ td.getLast? = some '\n' ∧ countOcc trPat td = 0

theorem tdPlain_like (cell : List Char) (h : occursIn trPat cell = false) :
    tdLike (tdPlain cell) := by
  refine ⟨⟨_, rfl⟩, ?_, ?_⟩
  · show ((lit "                <td>" ++ cell) ++ lit "</td>\n").getLast? = some '\n'
    rw [List.getLast?_append]
    rfl
  · show countOcc trPat ((lit "                <td>" ++ cell) ++ lit "</td>\n") = 0
    rw [List.append_assoc,
      countOcc_append_l trPat (lit "                <td>") '>' (by rfl) (by decide)]
    show _ + countOcc trPat (cell ++ '<' :: lit "/td>\n") = 0
    rw [countOcc_append_r trPat cell (lit "/td>\n") '<' (by decide),
      countOcc_eq_zero trPat cell h]
    decide

theorem tdMarked_like (cell : List Char) (b : Bool)
    (h : occursIn trPat cell = false) : tdLike (tdMarked cell b) := by
  cases b
  · refine ⟨⟨_, rfl⟩, ?_, ?_⟩
    · show ((((lit "                <td class=\"cell-fail\">" ++ cell) ++
        lit " ✗") ++ lit "</td>\n")).getLast? = some '\n'
      rw [List.getLast?_append]
      rfl
    · show countOcc trPat (((lit "                <td class=\"cell-fail\">" ++
        cell) ++ lit " ✗") ++ lit "</td>\n") = 0
      rw [List.append_assoc, List.append_assoc,
        countOcc_append_l trPat (lit "                <td class=\"cell-fail\">")
          '>' (by rfl) (by decide)]
      show _ + countOcc trPat (cell ++ ' ' :: lit "✗</td>\n") = 0
      rw [countOcc_append_r trPat cell (lit "✗</td>\n") ' ' (by decide),
        countOcc_eq_zero trPat cell h]
      decide
  · refine ⟨⟨_, rfl⟩, ?_, ?_⟩
    · show ((((lit "                <td class=\"cell-pass\">" ++ cell) ++
        lit " ✓") ++ lit "</td>\n")).getLast? = some '\n'
      rw [List.getLast?_append]
      rfl
    · show countOcc trPat (((lit "                <td class=\"cell-pass\">" ++
        cell) ++ lit " ✓") ++ lit "</td>\n") = 0
      rw [List.append_assoc, List.append_assoc,
        countOcc_append_l trPat (lit "                <td class=\"cell-pass\">")
          '>' (by rfl) (by decide)]
      show _ + countOcc trPat (cell ++ ' ' :: lit "✓</td>\n") = 0
      rw [countOcc_append_r trPat cell (lit "✓</td>\n") ' ' (by decide),
        countOcc_eq_zero trPat cell h]
      decide

/-- Cell lines contribute no row-open marker to the body. -/
theorem countOcc_tds_close (close : List Char)
    (hc : countOcc trPat close = 0) :
    ∀ L : List (List Char), (∀ td ∈ L, tdLike td) →
      countOcc trPat (L.flatten ++ close) = 0 := by
  intro L
  induction L with
  | nil => intro _; simpa using hc
  | cons td rest ih =>
    intro hall
    obtain ⟨⟨r, hr⟩, hlast, hcount⟩ := hall td (List.mem_cons_self _ _)
    rw [List.flatten_cons, List.append_assoc,
      countOcc_append_l trPat td '\n' hlast (by decide), hcount,
      ih (fun x hx => hall x (List.mem_cons_of_mem _ hx))]

theorem snd_mem_of_mem_enumFrom {α : Type} :
    ∀ (l : List α) (n : ℕ) (p : ℕ × α), p ∈ l.enumFrom n → p.2 ∈ l := by
  intro l
  induction l with
  | nil => intro n p h; simp [List.enumFrom] at h
  | cons a t ih =>
    intro n p h
    rcases List.mem_cons.1 h with rfl | h2
    · exact List.mem_cons_self _ _
    · exact List.mem_cons_of_mem _ (ih (n + 1) p h2)

/-- A rendered plain row holds exactly one row-open marker, provided no
cell smuggles one in. -/
theorem countOcc_plainRow (row : List (List Char))
    (h : ∀ cell ∈ row, occursIn trPat cell = false) :
    countOcc trPat (plainRow row) = 1 := by
  show countOcc trPat ((lit "            <tr>\n" ++ (row.map tdPlain).flatten) ++
    lit "            </tr>\n") = 1
  rw [List.append_assoc,
    countOcc_append_l trPat (lit "            <tr>\n") '\n' (by rfl) (by decide),
    countOcc_tds_close (lit "            </tr>\n") (by decide) (row.map tdPlain)
      (by
        intro td htd
        obtain ⟨cell, hcell, rfl⟩ := List.mem_map.1 htd
        exact tdPlain_like cell (h cell hcell))]
  decide

/-- Same for a marked row. -/
theorem countOcc_markedRow (row : List (List Char)) (mi : ℕ) (b : Bool)
    (h : ∀ cell ∈ row, occursIn trPat cell = false) :
    countOcc trPat (markedRow row mi b) = 1 := by
  show countOcc trPat ((lit "            <tr>\n" ++
    ((row.enum.map (fun p =>
      if p.1 = mi then tdMarked p.2 b else tdPlain p.2)).flatten)) ++
    lit "            </tr>\n") = 1
  rw [List.append_assoc,
    countOcc_append_l trPat (lit "            <tr>\n") '\n' (by rfl) (by decide),
    countOcc_tds_close (lit "            </tr>\n") (by decide) _
      (by
        intro td htd
        obtain ⟨p, hp, rfl⟩ := List.mem_map.1 htd
        have hmem : p.2 ∈ row := snd_mem_of_mem_enumFrom row 0 p hp
        by_cases hpi : p.1 = mi
        · simpa [hpi] using tdMarked_like p.2 b (h p.2 hmem)
        · simpa [hpi] using tdPlain_like p.2 (h p.2 hmem))]
  decide

theorem processRow_head (specs? : Option TableSpecs) (row : List (List Char)) :
    ∃ r, processRowWithSpecs specs? row = ' ' :: r := by
  rcases processRow_shape specs? row with h | ⟨mi, b, h⟩
  · rw [h]; exact plainRow_head row
  · rw [h]; exact markedRow_head row mi b

theorem processRow_getLast (specs? : Option TableSpecs) (row : List (List Char)) :
    (processRowWithSpecs specs? row).getLast? = some '\n' := by
  rcases processRow_shape specs? row with h | ⟨mi, b, h⟩
  · rw [h]; exact plainRow_getLast row
  · rw [h]; exact markedRow_getLast row mi b

theorem processRow_count (specs? : Option TableSpecs) (row : List (List Char))
    (h : ∀ cell ∈ row, occursIn trPat cell = false) :
    countOcc trPat (processRowWithSpecs specs? row) = 1 := by
  rcases processRow_shape specs? row with he | ⟨mi, b, he⟩
  · rw [he]; exact countOcc_plainRow row h
  · rw [he]; exact countOcc_markedRow row mi b h

/-- `rfind` really points at an occurrence. -/
theorem strRFind_isPre (pat s : List Char) (pos : ℕ)
    (h : strRFind pat s = some pos) : isPre pat (s.drop pos) = true := by
  have hmem := List.mem_of_getLast?_eq_some h
  exact (List.mem_filter.1 hmem).2

theorem isPre_cons_inv (c : Char) (p s : List Char)
    (h : isPre (c :: p) s = true) : ∃ r, s = c :: r ∧ isPre p r = true := by
  cases s with
  | nil => simp [isPre] at h
  | cons s0 s' =>
    simp only [isPre, Bool.and_eq_true, decide_eq_true_eq] at h
    exact ⟨s', by rw [h.1], h.2⟩

/-- Claim C5: with a current table block (stored index valid, block
holding the closing body marker), `add_table_row` replaces only the
block at the stored table index, splicing exactly one freshly rendered
row fragment immediately before the table's last closing-body marker:
the prefix (all previously rendered rows) and the suffix (from the
marker on) are byte-identical to before, the block's row count rises by
exactly one, and every other block is byte-identical to before. -/
theorem C5_splice_one_row (st : HTMLTestReport) (row : List (List Char))
    (idx pos : ℕ) (b : List Char)
    (h1 : st.last_table_index = some idx)
    (h2 : st.lines.get? idx = some b)
    (h3 : strRFind tbodyMarker b = some pos)
    (hcells : ∀ cell ∈ row, occursIn trPat cell = false) :
    add_table_row st row =
      .ok { st with
            lines := st.lines.set idx
                       (b.take pos ++
                         processRowWithSpecs st.last_table_specs row ++
                         b.drop pos) }
    ∧ (∀ j, j ≠ idx →
        (st.lines.set idx (b.take pos ++
          processRowWithSpecs st.last_table_specs row ++ b.drop pos)).get? j =
          st.lines.get? j)
    ∧ isPre tbodyMarker (b.drop pos) = true
    ∧ countOcc trPat (b.take pos ++
        processRowWithSpecs st.last_table_specs row ++ b.drop pos) =
        countOcc trPat b + 1 := by
  have hmk : isPre tbodyMarker (b.drop pos) = true := strRFind_isPre _ _ _ h3
  refine ⟨?_, ?_, hmk, ?_⟩
  · simp only [add_table_row, h1, h2, h3]
  · intro j hj
    simp only [List.get?_eq_getElem?]
    exact List.getElem?_set_ne hj.symm
  · set frag := processRowWithSpecs st.last_table_specs row with hfragdef
    obtain ⟨r, hr⟩ := processRow_head st.last_table_specs row
    rw [← hfragdef] at hr
    obtain ⟨r2, hr2, _⟩ :=
      isPre_cons_inv ' ' (lit "       </tbody>") (b.drop pos) hmk
    have hlast : frag.getLast? = some '\n' := processRow_getLast _ _
    have hcount : countOcc trPat frag = 1 := processRow_count _ _ hcells
    have e1 : countOcc trPat (frag ++ b.drop pos) =
        1 + countOcc trPat (b.drop pos) := by
      rw [countOcc_append_l trPat frag '\n' hlast (by decide), hcount]
    have e2 : countOcc trPat (b.take pos ++ (frag ++ b.drop pos)) =
        countOcc trPat (b.take pos) + (1 + countOcc trPat (b.drop pos)) := by
      obtain ⟨rr, hrr⟩ : ∃ rr, frag ++ b.drop pos = ' ' :: rr :=
        ⟨r ++ b.drop pos, by rw [hr]; rfl⟩
      rw [hrr] at e1 ⊢
      rw [countOcc_append_r trPat (b.take pos) rr ' ' (by decide), e1]
    have e3 : countOcc trPat b =
        countOcc trPat (b.take pos) + countOcc trPat (b.drop pos) := by
      conv_lhs => rw [← List.take_append_drop pos b]
      rw [hr2, countOcc_append_r trPat (b.take pos) r2 ' ' (by decide)]
    rw [List.append_assoc, e2, e3]
    omega

/-- Witness for C5: a one-table builder gains exactly one rendered row. -/
theorem C5_splice_one_row_witness :
    (add_table_row
        ⟨[lit "        <tbody>\n        </tbody>\n"], some 0, none, [], 0, none,
          false, none, lit "no-version", none⟩ [lit "a"] =
      .ok { (⟨[lit "        <tbody>\n        </tbody>\n"], some 0, none, [], 0,
              none, false, none, lit "no-version", none⟩ : HTMLTestReport) with
            lines := [lit "        <tbody>\n        </tbody>\n"].set 0
              ((lit "        <tbody>\n        </tbody>\n").take 16 ++
                processRowWithSpecs none [lit "a"] ++
                (lit "        <tbody>\n        </tbody>\n").drop 16) })
    ∧ isPre tbodyMarker ((lit "        <tbody>\n        </tbody>\n").drop 16) = true
    ∧ countOcc trPat ((lit "        <tbody>\n        </tbody>\n").take 16 ++
        processRowWithSpecs none [lit "a"] ++
        (lit "        <tbody>\n        </tbody>\n").drop 16) =
        countOcc trPat (lit "        <tbody>\n        </tbody>\n") + 1 := by
  obtain ⟨w1, _, w3, w4⟩ := C5_splice_one_row
    ⟨[lit "        <tbody>\n        </tbody>\n"], some 0, none, [], 0, none,
      false, none, lit "no-version", none⟩ [lit "a"] 0 16
    (lit "        <tbody>\n        </tbody>\n") rfl rfl (by decide) (by decide)
  exact ⟨w1, w3, w4⟩

/-! ## Section patch claims (C6, C7, C10) -/

/-- Index of the first block matching both the title marker and the
title (the block the patch loop rewrites). -/
def firstMatchIdx (t : List Char) : List (List Char) → Option ℕ
  | [] => none
  | l :: ls => if sectionMatch t l then some 0 else (firstMatchIdx t ls).map (· + 1)

/-- The block list after a patch: only the first match is rewritten. -/
def patchedLines (t : List Char) (patch : List Char → List Char → List Char)
    (ls : List (List Char)) : List (List Char) :=
  match firstMatchIdx t ls with
  | none => ls
  | some i => ls.set i (patch t ((ls.get? i).getD []))

/-- With a real (non-`None`) title the scan never raises and rewrites
exactly the first matching block. -/
theorem patchFirst_some_eq (t : List Char)
    (patch : List Char → List Char → List Char) :
    ∀ ls : List (List Char),
      patchFirst (some t) patch ls = .ok (patchedLines t patch ls) := by
  intro ls
  induction ls with
  | nil => rfl
  | cons l ls ih =>
    by_cases hm : occursIn titleMarker l = true
    · by_cases ht : occursIn t l = true
      · simp only [patchFirst, hm, if_true, ht, patchedLines, firstMatchIdx,
          sectionMatch, Bool.and_self]
        rfl
      · have hsm : sectionMatch t l = false := by
          simp [sectionMatch, ht]
        simp only [patchFirst, hm, if_true, ht, if_false, ih, patchedLines,
          firstMatchIdx, hsm, Bool.false_eq_true]
        cases hfi : firstMatchIdx t ls with
        | none => simp [hfi]
        | some i => simp [hfi, List.set_cons_succ, List.get?_cons_succ]
    · have hsm : sectionMatch t l = false := by
        simp [sectionMatch, hm]
      simp only [patchFirst, hm, Bool.false_eq_true, if_false, ih, patchedLines,
        firstMatchIdx, hsm]
      cases hfi : firstMatchIdx t ls with
      | none => simp [hfi]
      | some i => simp [hfi, List.set_cons_succ, List.get?_cons_succ]

theorem patchedLines_get?_ne (t : List Char)
    (patch : List Char → List Char → List Char) (ls : List (List Char))
    (j : ℕ) (h : firstMatchIdx t ls ≠ some j) :
    (patchedLines t patch ls).get? j = ls.get? j := by
  unfold patchedLines
  cases hfi : firstMatchIdx t ls with
  | none => rfl
  | some i =>
    have hij : i ≠ j := fun hh => h (hh ▸ hfi)
    simp only [List.get?_eq_getElem?]
    exact List.getElem?_set_ne hij

theorem patchedLines_none (t : List Char)
    (patch : List Char → List Char → List Char) (ls : List (List Char))
    (h : firstMatchIdx t ls = none) : patchedLines t patch ls = ls := by
  unfold patchedLines
  rw [h]

/-- Claim C7: for every title, `update_section_status` and
`update_section_progress` (called with a real title) raise nothing and
modify at most the first block matching the title; every other block is
unchanged, and when no block matches both are silent no-ops leaving the
whole builder state unchanged. -/
theorem C7_patch_at_most_first (st : HTMLTestReport) (t s : List Char) (p : ℤ) :
    ∃ stS stP,
      update_section_status st (some t) s = .ok stS ∧
      update_section_progress st (some t) p = .ok stP ∧
      (∀ j, firstMatchIdx t st.lines ≠ some j →
        stS.lines.get? j = st.lines.get? j ∧
        stP.lines.get? j = st.lines.get? j) ∧
      (firstMatchIdx t st.lines = none → stS = st ∧ stP = st) := by
  refine ⟨{ st with lines := patchedLines t (fun tt line => patchStatusLine tt s line) st.lines },
    { st with lines := patchedLines t (fun _ line => patchProgressLine ((max 0 (min 100 p)).toNat) line) st.lines },
    ?_, ?_, ?_, ?_⟩
  · simp only [update_section_status, patchFirst_some_eq]
  · simp only [update_section_progress, patchFirst_some_eq]
  · intro j hj
    exact ⟨patchedLines_get?_ne t (fun tt line => patchStatusLine tt s line) st.lines j hj,
      patchedLines_get?_ne t (fun _ line => patchProgressLine ((max 0 (min 100 p)).toNat) line) st.lines j hj⟩
  · intro hnone
    rw [patchedLines_none t _ st.lines hnone, patchedLines_none t _ st.lines hnone]
    exact ⟨rfl, rfl⟩

/-- Witness for C7 (no Prop hypotheses; instantiated at a concrete
builder and title). -/
theorem C7_patch_at_most_first_witness :
    ∃ stS stP,
      update_section_status
          ⟨[lit "x"], none, none, [], 0, none, false, none, lit "no-version",
            none⟩ (some (lit "T")) (lit "pass") = .ok stS ∧
      update_section_progress
          ⟨[lit "x"], none, none, [], 0, none, false, none, lit "no-version",
            none⟩ (some (lit "T")) 50 = .ok stP ∧
      (∀ j, firstMatchIdx (lit "T") [lit "x"] ≠ some j →
        stS.lines.get? j = [lit "x"].get? j ∧
        stP.lines.get? j = [lit "x"].get? j) ∧
      (firstMatchIdx (lit "T") [lit "x"] = none →
        stS = ⟨[lit "x"], none, none, [], 0, none, false, none,
          lit "no-version", none⟩ ∧
        stP = ⟨[lit "x"], none, none, [], 0, none, false, none,
          lit "no-version", none⟩) :=
  C7_patch_at_most_first _ (lit "T") (lit "pass") 50

/-- With a `None` title, the scan raises `TypeError` at the first block
holding the title marker, leaving the block list untouched. -/
theorem patchFirst_none_exn (patch : List Char → List Char → List Char) :
    ∀ ls : List (List Char), (∃ l ∈ ls, occursIn titleMarker l = true) →
      patchFirst none patch ls = .exn .typeError ls := by
  intro ls
  induction ls with
  | nil => intro h; simp at h
  | cons l ls ih =>
    intro ⟨x, hx, hocc⟩
    by_cases hm : occursIn titleMarker l = true
    · simp [patchFirst, hm]
    · have hx' : x ∈ ls := by
        rcases List.mem_cons.1 hx with rfl | hx'
        · exact absurd hocc hm
        · exact hx'
      simp only [patchFirst, hm, Bool.false_eq_true, if_false, ih ⟨x, hx', hocc⟩]

/-- Claim C10: once some block contains a section-title fragment but no
section is currently open, `end_section` with a status raises
(`None in line` is a `TypeError`) instead of closing cleanly; the
builder state is left unchanged. -/
theorem C10_end_section_no_open_section (st : HTMLTestReport) (s : List Char)
    (h1 : st.current_section_title = none)
    (h2 : ∃ l ∈ st.lines, occursIn titleMarker l = true) :
    end_section st (some s) = .exn .typeError st := by
  simp only [end_section, h1, update_section_progress,
    patchFirst_none_exn _ st.lines h2]

/-- Witness for C10: one opened (never-closed) section line, current
title cleared. -/
theorem C10_end_section_no_open_section_witness :
    end_section
        ⟨[lit "<div class=\"section-title category-running\">A</div>\n"], none,
          none, [], 1, none, false, none, lit "no-version", none⟩
        (some (lit "fail")) =
      .exn .typeError
        ⟨[lit "<div class=\"section-title category-running\">A</div>\n"], none,
          none, [], 1, none, false, none, lit "no-version", none⟩ :=
  C10_end_section_no_open_section _ _ rfl
    ⟨lit "<div class=\"section-title category-running\">A</div>\n",
      List.mem_cons_self _ _, by decide⟩

/-- Claim C6: closing an open section titled `T` with a status is
byte-identical — as builder state and hence as serialized document — to
setting progress 100, setting the status, then closing with no status. -/
theorem C6_end_with_status_equiv (st : HTMLTestReport) (T s : List Char)
    (h : st.current_section_title = some T) :
    ∃ stA stB,
      end_section st (some s) = .ok stA ∧
      (∃ st1 st2,
        update_section_progress st (some T) 100 = .ok st1 ∧
        update_section_status st1 (some T) s = .ok st2 ∧
        end_section st2 none = .ok stB) ∧
      stA = stB ∧ finalize stA = finalize stB := by
  have hprog : update_section_progress st (some T) 100 =
      .ok { st with lines := patchedLines T (fun _ line => patchProgressLine ((max 0 (min 100 (100 : ℤ))).toNat) line) st.lines } := by
    simp only [update_section_progress, patchFirst_some_eq]
  have hstat : ∀ x : HTMLTestReport, update_section_status x (some T) s =
      .ok { x with lines := patchedLines T (fun tt line => patchStatusLine tt s line) x.lines } := fun x => by
    simp only [update_section_status, patchFirst_some_eq]
  refine ⟨_, _, ?_, ⟨_, _, hprog, hstat _, rfl⟩, rfl, rfl⟩
  simp only [end_section, h, hprog, hstat]

/-- Witness for C6: a freshly opened section, closed with status. -/
theorem C6_end_with_status_equiv_witness :
    ∃ stA stB,
      end_section
        (start_section
          ⟨[], none, none, [], 0, none, false, none, lit "no-version", none⟩
          (lit "Power Tests") false) (some (lit "fail")) = .ok stA ∧
      (∃ st1 st2,
        update_section_progress
          (start_section
            ⟨[], none, none, [], 0, none, false, none, lit "no-version", none⟩
            (lit "Power Tests") false) (some (lit "Power Tests")) 100 = .ok st1 ∧
        update_section_status st1 (some (lit "Power Tests")) (lit "fail") =
          .ok st2 ∧
        end_section st2 none = .ok stB) ∧
      stA = stB ∧ finalize stA = finalize stB :=
  C6_end_with_status_equiv _ (lit "Power Tests") (lit "fail") rfl


/-! ## Progress patch claim (C8) -/

theorem digitChar_isDigit (m : ℕ) (h : m < 10) :
    (Nat.digitChar m).isDigit = true := by
  interval_cases m <;> rfl

theorem natStrAux_digits :
    ∀ fuel n : ℕ, ∀ ch ∈ natStrAux fuel n, ch.isDigit = true := by
  intro fuel
  induction fuel with
  | zero => intro n ch h; simp [natStrAux] at h
  | succ f ih =>
    intro n ch h
    rw [natStrAux] at h
    by_cases h10 : n < 10
    · rw [if_pos h10] at h
      rw [List.mem_singleton.1 h]
      exact digitChar_isDigit n h10
    · rw [if_neg h10] at h
      rcases List.mem_append.1 h with h1 | h2
      · exact ih (n / 10) ch h1
      · rw [List.mem_singleton.1 h2]
        exact digitChar_isDigit _ (Nat.mod_lt _ (by omega))

/-- Everything `str` prints for a natural number is a digit. -/
theorem natStr_digits (n : ℕ) : ∀ ch ∈ natStr n, ch.isDigit = true :=
  natStrAux_digits (n + 1) n

theorem natStr_ne_nil (n : ℕ) : natStr n ≠ [] := by
  rw [natStr, natStrAux]
  by_cases h10 : n < 10
  · simp [h10]
  · simp [h10]

theorem firstMatchIdx_append_single (t : List Char) :
    ∀ (ls : List (List Char)) (l : List Char),
      (∀ x ∈ ls, sectionMatch t x = false) → sectionMatch t l = true →
      firstMatchIdx t (ls ++ [l]) = some ls.length := by
  intro ls
  induction ls with
  | nil => intro l _ hl; simp [firstMatchIdx, hl]
  | cons a ls ih =>
    intro l hno hl
    have ha : sectionMatch t a = false := hno a (List.mem_cons_self _ _)
    simp only [List.cons_append, firstMatchIdx, ha, Bool.false_eq_true, if_false]
    rw [show ls.append [l] = ls ++ [l] from rfl,
      ih l (fun x hx => hno x (List.mem_cons_of_mem _ hx)) hl]
    rfl

theorem set_append_len {α : Type} :
    ∀ (ls : List α) (x l : α), (ls ++ [l]).set ls.length x = ls ++ [x] := by
  intro ls
  induction ls with
  | nil => intro x l; rfl
  | cons a t ih => intro x l; simp [ih]

theorem get?_append_len {α : Type} :
    ∀ (ls : List α) (l : α), (ls ++ [l]).get? ls.length = some l := by
  intro ls
  induction ls with
  | nil => intro l; rfl
  | cons a t ih => intro l; exact ih l

/-- When no earlier block matches and the appended one does, the patch
lands exactly on the appended block. -/
theorem patchedLines_append_single (t : List Char)
    (patch : List Char → List Char → List Char) (ls : List (List Char))
    (l : List Char) (hno : ∀ x ∈ ls, sectionMatch t x = false)
    (hl : sectionMatch t l = true) :
    patchedLines t patch (ls ++ [l]) = ls ++ [patch t l] := by
  unfold patchedLines
  rw [firstMatchIdx_append_single t ls l hno hl]
  simp only [get?_append_len, Option.getD_some, set_append_len]

set_option maxRecDepth 100000 in
/-- The width rewrite on a freshly opened (non-collapsible, counter 0)
section line, for any replacement digits `w`. -/
theorem widthSub_fresh (w : List Char) :
    reSub (widthTry w) (lit "<div class=\"section\">\n    <div class=\"section-title category-running\">Power Tests<span class=\"section-status section-status-running\"></span><div class=\"section-progress\"><div id=\"section-0-progress\" class=\"section-progress-bar animated\" style=\"width: 0%\"></div></div></div>\n") =
    lit "<div class=\"section\">\n    <div class=\"section-title category-running\">Power Tests<span class=\"section-status section-status-running\"></span><div class=\"section-progress\"><div id=\"section-0-progress\" class=\"section-progress-bar animated\" style=\"width: " ++
      ((w ++ lit "%\"") ++ lit "></div></div></div>\n") := rfl

set_option maxRecDepth 100000 in
/-- The full progress patch at 100 on the fresh section line: width
becomes 100, the ` animated` marker is gone, both `complete` markers
are present. -/
theorem patchFresh_100 :
    patchProgressLine 100 (lit "<div class=\"section\">\n    <div class=\"section-title category-running\">Power Tests<span class=\"section-status section-status-running\"></span><div class=\"section-progress\"><div id=\"section-0-progress\" class=\"section-progress-bar animated\" style=\"width: 0%\"></div></div></div>\n") =
    lit "<div class=\"section\">\n    <div class=\"section-title category-running\">Power Tests<span class=\"section-status section-status-running\"></span><div class=\"section-progress complete\"><div id=\"section-0-progress\" class=\"section-progress-bar complete\" style=\"width: 100%\"></div></div></div>\n" := rfl

set_option maxRecDepth 100000 in
/-- The progress patch below 100 rewrites only the width digits. -/
theorem patchFresh_lt (c : ℕ) (hlt : c < 100) :
    patchProgressLine c (lit "<div class=\"section\">\n    <div class=\"section-title category-running\">Power Tests<span class=\"section-status section-status-running\"></span><div class=\"section-progress\"><div id=\"section-0-progress\" class=\"section-progress-bar animated\" style=\"width: 0%\"></div></div></div>\n") =
    lit "<div class=\"section\">\n    <div class=\"section-title category-running\">Power Tests<span class=\"section-status section-status-running\"></span><div class=\"section-progress\"><div id=\"section-0-progress\" class=\"section-progress-bar animated\" style=\"width: " ++ natStr c ++ lit "%\"></div></div></div>\n" := by
  simp only [patchProgressLine, widthSub_fresh]
  rw [if_neg (by omega)]
  simp only [List.append_assoc]
  congr 1

set_option maxRecDepth 1000000 in
/-- Claim C8: `update_section_progress` clamps its percent argument to
[0, 100] before rewriting the matched section's progress-bar width, and
exactly when the clamped value equals 100 it additionally removes the
in-progress animation marker and adds the complete marker.  Stated as:
(1) every call equals the call with the clamped percent (so 150 acts as
100 and -10 as 0); (2) on a freshly opened section the patched line
carries width `clamp p`, carries ` animated` iff `clamp p < 100`, and
carries the `complete` marker iff `clamp p = 100`. -/
theorem C8_progress_clamp_and_complete :
    (∀ (st : HTMLTestReport) (t : List Char) (p : ℤ),
      update_section_progress st (some t) p =
        update_section_progress st (some t) (max 0 (min 100 p)))
  ∧ (∀ (st : HTMLTestReport) (p : ℤ),
      st.collapsible = false → st.section_counter = 0 →
      (∀ l ∈ st.lines, sectionMatch (lit "Power Tests") l = false) →
      ∃ st' L,
        update_section_progress (start_section st (lit "Power Tests") false)
          (some (lit "Power Tests")) p = .ok st' ∧
        st'.lines = st.lines ++ [L] ∧
        occursIn (lit "style=\"width: " ++ natStr ((max 0 (min 100 p)).toNat) ++
          lit "%\"") L = true ∧
        occursIn (lit " animated") L = decide ((max 0 (min 100 p)).toNat < 100) ∧
        occursIn (lit "section-progress-bar complete") L =
          decide ((max 0 (min 100 p)).toNat = 100)) := by
  constructor
  · intro st t p
    have hcl : max 0 (min 100 (max 0 (min 100 p))) = max 0 (min 100 p) := by
      omega
    simp only [update_section_progress, hcl]
  · intro st p hcol hctr hnomatch
    set c : ℕ := (max 0 (min 100 p)).toNat with hc
    have hcle : c ≤ 100 := by omega
    have hstart : start_section st (lit "Power Tests") false =
        { st with current_section_title := some (lit "Power Tests"),
                  section_counter := 1,
                  lines := st.lines ++ [lit "<div class=\"section\">\n    <div class=\"section-title category-running\">Power Tests<span class=\"section-status section-status-running\"></span><div class=\"section-progress\"><div id=\"section-0-progress\" class=\"section-progress-bar animated\" style=\"width: 0%\"></div></div></div>\n"] } := by
      simp only [start_section, hcol, hctr, Bool.false_eq_true, if_false]
      rfl
    have hpatched : update_section_progress
        (start_section st (lit "Power Tests") false)
        (some (lit "Power Tests")) p =
        .ok { st with current_section_title := some (lit "Power Tests"),
                      section_counter := 1,
                      lines := st.lines ++ [patchProgressLine c (lit "<div class=\"section\">\n    <div class=\"section-title category-running\">Power Tests<span class=\"section-status section-status-running\"></span><div class=\"section-progress\"><div id=\"section-0-progress\" class=\"section-progress-bar animated\" style=\"width: 0%\"></div></div></div>\n")] } := by
      rw [hstart]
      simp only [update_section_progress, patchFirst_some_eq]
      rw [patchedLines_append_single _ _ st.lines _ hnomatch (by decide)]
    refine ⟨_, patchProgressLine c (lit "<div class=\"section\">\n    <div class=\"section-title category-running\">Power Tests<span class=\"section-status section-status-running\"></span><div class=\"section-progress\"><div id=\"section-0-progress\" class=\"section-progress-bar animated\" style=\"width: 0%\"></div></div></div>\n"), hpatched, rfl, ?_, ?_, ?_⟩
    · by_cases h100 : c = 100
      · rw [h100, patchFresh_100]
        decide
      · have hlt : c < 100 := by omega
        rw [patchFresh_lt c hlt]
        exact occursIn_of_eq _ _ (lit "<div class=\"section\">\n    <div class=\"section-title category-running\">Power Tests<span class=\"section-status section-status-running\"></span><div class=\"section-progress\"><div id=\"section-0-progress\" class=\"section-progress-bar animated\" ") (lit "></div></div></div>\n")
          (by simp only [List.append_assoc]; rfl)
    · by_cases h100 : c = 100
      · rw [h100, patchFresh_100]
        decide
      · have hlt : c < 100 := by omega
        rw [patchFresh_lt c hlt,
          occursIn_of_eq (lit " animated") _ (lit "<div class=\"section\">\n    <div class=\"section-title category-running\">Power Tests<span class=\"section-status section-status-running\"></span><div class=\"section-progress\"><div id=\"section-0-progress\" class=\"section-progress-bar")
            (lit "\" style=\"width: " ++ (natStr c ++ lit "%\"></div></div></div>\n"))
            (by simp only [List.append_assoc]; rfl),
          decide_eq_true hlt]
    · by_cases h100 : c = 100
      · rw [h100, patchFresh_100]
        decide
      · have hlt : c < 100 := by omega
        have hdis : ∀ ch ∈ lit "section-progress-bar complete", ch ∉ natStr c := by
          intro ch hch hmem
          have h1 : ch.isDigit = true := natStr_digits c ch hmem
          have h2 : ∀ x ∈ lit "section-progress-bar complete", x.isDigit = false := by
            decide
          rw [h2 ch hch] at h1
          exact Bool.false_ne_true h1
        rw [patchFresh_lt c hlt,
          occursIn_disjoint_mid _ (lit "<div class=\"section\">\n    <div class=\"section-title category-running\">Power Tests<span class=\"section-status section-status-running\"></span><div class=\"section-progress\"><div id=\"section-0-progress\" class=\"section-progress-bar animated\" style=\"width: ") (natStr c) (lit "%\"></div></div></div>\n")
            (by decide) (natStr_ne_nil c) hdis,
          decide_eq_false h100]
        decide

/-- Witness for C8: percent 150 clamps to 100 on a fresh builder. -/
theorem C8_progress_clamp_and_complete_witness :
    (update_section_progress
        ⟨[], none, none, [], 0, none, false, none, lit "no-version", none⟩
        (some (lit "T")) 150 =
      update_section_progress
        ⟨[], none, none, [], 0, none, false, none, lit "no-version", none⟩
        (some (lit "T")) (max 0 (min 100 150)))
  ∧ (∃ st' L,
      update_section_progress
        (start_section
          ⟨[], none, none, [], 0, none, false, none, lit "no-version", none⟩
          (lit "Power Tests") false)
        (some (lit "Power Tests")) 150 = .ok st' ∧
      st'.lines =
        (⟨[], none, none, [], 0, none, false, none, lit "no-version", none⟩ :
          HTMLTestReport).lines ++ [L] ∧
      occursIn (lit "style=\"width: " ++
        natStr ((max 0 (min 100 (150 : ℤ))).toNat) ++ lit "%\"") L = true ∧
      occursIn (lit " animated") L =
        decide ((max 0 (min 100 (150 : ℤ))).toNat < 100) ∧
      occursIn (lit "section-progress-bar complete") L =
        decide ((max 0 (min 100 (150 : ℤ))).toNat = 100)) :=
  ⟨C8_progress_clamp_and_complete.1 _ (lit "T") 150,
   C8_progress_clamp_and_complete.2 _ 150 rfl rfl (by simp)⟩

end TestLog
